import Mathlib

/-!
Verification of the feed fetch/parse/cache pipeline of the RSSSandbox
repository (backend feed parser service: LRU cache, in-flight request
deduplication, format normalization, size guard, error classifier).

The TypeScript source is shallowly embedded: JS objects become structures
with `Option` fields for possibly-`undefined` properties, JS truthiness of
strings (`"" falsy`) is modelled explicitly, epoch-millisecond clocks are
`Nat`, and `Date` values are `Option Int` (with `none` an Invalid Date).
`Math.ceil(n * 1.2)` and `Math.ceil(n * 1.3)` are modelled by exact
rational ceilings (these agree with binary floating point for all sizes
within the pipeline's 10 MiB range).  `JSON.stringify` lengths are
abstracted as explicit oracle arguments.  Date-string parsing
(`new Date(string)`) is abstracted as a function parameter `pd`.
-/

set_option maxRecDepth 10000

namespace RSSSandbox

/-! ### JavaScript value-semantics helpers -/

/-- JS `a || b` on possibly-absent strings: returns `b` whenever `a` is
`undefined` or the empty string (both falsy in JS), else `a`. -/
def jsOr (a b : Option String) : Option String :=
  match a with
  | some s => if s = "" then b else some s
  | none => b

/-- JS `a || ''`: coalesce an absent string to the empty string. -/
def jsOrEmpty (a : Option String) : String :=
  a.getD ""

/-- JS `a || d` with a non-empty string default `d`. -/
def jsOrD (a : Option String) (d : String) : String :=
  match a with
  | some s => if s = "" then d else s
  | none => d

/-- Scan for `pat` as a contiguous sublist: try each tail of `l`. -/
def strHasAux (pat : List Char) : List Char → Bool
  | [] => pat.isPrefixOf []
  | c :: rest => pat.isPrefixOf (c :: rest) || strHasAux pat rest

/-- JS `String.prototype.includes`: substring containment. -/
def strHas (s pat : String) : Bool :=
  strHasAux pat.data s.data

/-- JS `String.prototype.toLowerCase` (ASCII-adequate, via `Char.toLower`). -/
def lowerStr (s : String) : String :=
  ⟨s.data.map Char.toLower⟩

/-- The apostrophe character (written by code point). -/
def squote : Char := Char.ofNat 39

/-! ### Data model — `shared/types/feed.ts`

`FeedItem`, `FeedMetadata`, `ParsedFeed`, `FeedParseResult`.  A metadata
image value (`RSSParserFeed.image` is `object | string`, and the
normalizer's `feed.image.url || feed.image` fallback can store the whole
object in the `url` slot) is modelled by the recursive type `ImgVal`. -/

/-- A JS value that can sit in an image (or image-url) slot: `undefined`,
a string URL, or an image object `{url?, title?, link?, width?, height?}`
whose `url` slot may itself hold such a value (the
`feed.image.url || feed.image` type-pun).  The recursion is kept direct
(an absent url is `.undef`) rather than nested through `Option`. -/
inductive ImgVal where
  | undef
  | str (s : String)
  | obj (url : ImgVal) (title : Option String) (link : Option String)
        (width : Option Nat) (height : Option Nat)

/-- JS truthiness of an image-slot value: `undefined` and the empty
string are falsy. -/
def ImgVal.truthy : ImgVal → Bool
  | .undef => false
  | .str s => s ≠ ""
  | .obj .. => true

/-- The `title` property of an image value (only an object has one). -/
def ImgVal.titleProp : ImgVal → Option String
  | .obj _ t _ _ _ => t
  | _ => none

/-- The `link` property of an image value. -/
def ImgVal.linkProp : ImgVal → Option String
  | .obj _ _ l _ _ => l
  | _ => none

/-- The `width` property of an image value. -/
def ImgVal.widthProp : ImgVal → Option Nat
  | .obj _ _ _ w _ => w
  | _ => none

/-- The `height` property of an image value. -/
def ImgVal.heightProp : ImgVal → Option Nat
  | .obj _ _ _ _ h => h
  | _ => none

/-- `feed.image.url || feed.image`: the `url` property when truthy, else
the image value itself. -/
def ImgVal.urlOrSelf : ImgVal → ImgVal
  | .undef => .undef
  | .str s => .str s
  | .obj u t l w h => if u.truthy then u else .obj u t l w h

/-- A JS `Date` value: `some` epoch milliseconds, or `none` for an Invalid
Date object (still truthy in JS). -/
abbrev JSDate := Option Int

/-- A raw date slot as seen by the normalizer: either a string (from the
XML/JSON parser) or an already-constructed `Date` object (when normalized
output is fed back in). -/
inductive RawDateVal where
  | str (s : String)
  | date (d : JSDate)


/-- JS truthiness of a raw date slot: only the empty string is falsy
(every `Date` object, even an Invalid Date, is truthy). -/
def RawDateVal.truthy : RawDateVal → Bool
  | .str s => s ≠ ""
  | .date _ => true

/-- `new Date(v)`: parse a string with `pd`; copy a `Date`'s value. -/
def jsNewDate (pd : String → JSDate) : RawDateVal → JSDate
  | .str s => pd s
  | .date d => d

/-- `v ? new Date(v) : undefined` — the date-normalization idiom used for
`pubDate` / `lastBuildDate` / `date_published`. -/
def normDate (pd : String → JSDate) (v : Option RawDateVal) : Option JSDate :=
  match v with
  | some w => if w.truthy then some (jsNewDate pd w) else none
  | none => none

/-- An enclosure/attachment record; the source rebuilds it field-by-field,
and each field can be `undefined` at runtime. -/
structure EnclosureVal where
  url : Option String
  type : Option String
  length : Option Nat


/-- Normalized feed item (`shared/types/feed.ts` `FeedItem`). -/
structure FeedItem where
  title : String
  link : String
  description : Option String
  content : Option String
  pubDate : Option JSDate
  guid : Option String
  author : Option String
  categories : List String
  image : Option String
  enclosure : Option EnclosureVal


/-- Normalized metadata image (`FeedMetadata.image`). -/
structure FeedImage where
  url : ImgVal
  title : String
  link : String
  width : Option Nat
  height : Option Nat


/-- Normalized feed metadata (`shared/types/feed.ts` `FeedMetadata`). -/
structure FeedMetadata where
  title : String
  description : Option String
  link : String
  language : Option String
  copyright : Option String
  managingEditor : Option String
  webMaster : Option String
  pubDate : Option JSDate
  lastBuildDate : Option JSDate
  image : Option FeedImage


/-- Feed type discriminator. -/
inductive FeedType where
  | rss
  | atom
  | json


/-- Canonical parsed feed.  The `raw` passthrough slot (an opaque
serialized form retained for debugging only, unread by the modelled
logic) is omitted. -/
structure ParsedFeed where
  type : FeedType
  metadata : FeedMetadata
  items : List FeedItem


/-- Result of a parse attempt (`FeedParseResult`). -/
structure FeedParseResult where
  success : Bool
  feed : Option ParsedFeed
  error : Option String


/-- Successful result constructor. -/
def mkSuccess (nf : ParsedFeed) : FeedParseResult :=
  { success := true, feed := some nf, error := none }

/-- Failure result constructor. -/
def mkFailure (msg : String) : FeedParseResult :=
  { success := false, feed := none, error := some msg }

/-! ### Raw parser output shapes (`rss-parser` items/feeds, JSON Feed) -/

/-- `media:thumbnail` attribute bag: `{ '@'?: { url?: string } }`. -/
structure MediaThumb where
  atProp : Option (Option String)


/-- An item as produced by `rss-parser` (interface `RSSParserItem`).
`contentEncoded` stands for the `'content:encoded'` property and
`mediaThumbnail` for `'media:thumbnail'`. -/
structure RSSParserItem where
  title : Option String
  link : Option String
  description : Option String
  contentSnippet : Option String
  content : Option String
  contentEncoded : Option String
  pubDate : Option RawDateVal
  guid : Option String
  id : Option String
  author : Option String
  creator : Option String
  categories : Option (List String)
  thumbnail : Option (Option String)
  mediaThumbnail : Option MediaThumb
  enclosure : Option EnclosureVal


/-- A feed as produced by `rss-parser` (interface `RSSParserFeed`).
`raw` is modelled as `Option String`: a non-string runtime value behaves
exactly like an absent one at the single `typeof feed.raw === 'string'`
use site. -/
structure RSSParserFeed where
  title : Option String
  description : Option String
  link : Option String
  feedUrl : Option String
  language : Option String
  copyright : Option String
  managingEditor : Option String
  webMaster : Option String
  pubDate : Option RawDateVal
  lastBuildDate : Option RawDateVal
  image : Option ImgVal
  items : Option (List RSSParserItem)
  raw : Option String


/-- A JSON Feed author object. -/
structure JAuthor where
  name : Option String


/-- A JSON Feed attachment object. -/
structure JAttachment where
  url : Option String
  mime_type : Option String
  size_in_bytes : Option Nat


/-- An item of a JSON Feed document (interface `JSONFeedItem`). -/
structure JSONFeedItem where
  title : Option String
  url : Option String
  external_url : Option String
  summary : Option String
  content_html : Option String
  content_text : Option String
  date_published : Option RawDateVal
  id : Option String
  authors : Option (List JAuthor)
  tags : Option (List String)
  image : Option String
  banner_image : Option String
  attachments : Option (List JAttachment)


/-- The top-level JSON Feed document fields read by the service. -/
structure JSONFeedData where
  version : Option String
  items : Option (List JSONFeedItem)
  title : Option String
  description : Option String
  home_page_url : Option String
  language : Option String
  icon : Option String


/-! ### Image extraction — `FeedParserService.extractImageFromContent`

The regex `/<img[^>]+src=["']([^"']+)["']/i` with standard leftmost-match,
greedy-with-backtracking semantics. -/

/-- Case-insensitive literal prefix match; `pat` is given lowercased.
Returns the remainder on success. -/
def ciPrefixDrop (pat l : List Char) : Option (List Char) :=
  if (l.take pat.length).map Char.toLower = pat then some (l.drop pat.length) else none

/-- Match `src=["']([^"']+)["']` at the head of `t`, returning the capture. -/
def imgTailMatch (t : List Char) : Option String :=
  (ciPrefixDrop ['s', 'r', 'c', '='] t).bind fun t1 =>
    match t1 with
    | [] => none
    | q :: t2 =>
      if q = '"' ∨ q = squote then
        let cap := t2.takeWhile fun c => ¬ (c = '"' ∨ c = squote)
        match t2.drop cap.length with
        | [] => none
        | q2 :: _ =>
          if cap ≠ [] ∧ (q2 = '"' ∨ q2 = squote) then some ⟨cap⟩ else none
      else none

/-- After a matched `<img`, consume `[^>]+` greedily (longest first, then
backtrack) and match the `src` tail. -/
def imgAfterMatch (rest : List Char) : Option String :=
  let m := (rest.takeWhile (· ≠ '>')).length
  ((List.range m).map (fun j => m - j)).findSome? fun k =>
    if 1 ≤ k then imgTailMatch (rest.drop k) else none

/-- Leftmost match of the whole `<img ... src="...">` pattern. -/
def imgScan (l : List Char) : Option String :=
  (List.range l.length).findSome? fun i =>
    (ciPrefixDrop ['<', 'i', 'm', 'g'] (l.drop i)).bind imgAfterMatch

/-- `extractImageFromContent(content?)`: `undefined`/empty content yields
no image; otherwise the first regex capture. -/
def extractImageFromContent (content : Option String) : Option String :=
  match content with
  | none => none
  | some s => if s = "" then none else imgScan s.data

/-! ### Normalizers — `normalizeItem`, `normalizeJsonFeedItem`,
`normalizeMetadata` -/

/-- `FeedParserService.normalizeItem` (RSS/Atom path). -/
def normalizeItem (pd : String → JSDate) (item : RSSParserItem) : FeedItem :=
  { title := jsOrEmpty item.title
    link := jsOrEmpty item.link
    description := jsOr item.contentSnippet item.description
    content := jsOr item.content item.contentEncoded
    pubDate := normDate pd item.pubDate
    guid := jsOr (jsOr item.guid item.id) item.link
    author := jsOr item.author item.creator
    categories := item.categories.getD []
    image := jsOr (jsOr (item.thumbnail.bind (fun t => t))
                        (item.mediaThumbnail.bind (fun mt => mt.atProp.bind (fun a => a))))
                  (extractImageFromContent (jsOr item.content item.description))
    enclosure := item.enclosure.map fun e =>
      { url := e.url, type := e.type, length := e.length } }

/-- `FeedParserService.normalizeJsonFeedItem` (JSON Feed path). -/
def normalizeJsonFeedItem (pd : String → JSDate) (item : JSONFeedItem) : FeedItem :=
  { title := jsOrEmpty item.title
    link := jsOrEmpty (jsOr item.url item.external_url)
    description := item.summary
    content := jsOr item.content_html item.content_text
    pubDate := normDate pd item.date_published
    guid := jsOr item.id item.url
    author := item.authors.bind fun l => l.head?.bind fun a => a.name
    categories := item.tags.getD []
    image := jsOr item.image item.banner_image
    enclosure :=
      match item.attachments with
      | some (a :: _) => some { url := a.url, type := a.mime_type, length := a.size_in_bytes }
      | _ => none }

/-- `FeedParserService.normalizeMetadata`. -/
def normalizeMetadata (pd : String → JSDate) (feed : RSSParserFeed) : FeedMetadata :=
  { title := jsOrEmpty feed.title
    description := feed.description
    link := jsOrEmpty (jsOr feed.link feed.feedUrl)
    language := feed.language
    copyright := feed.copyright
    managingEditor := feed.managingEditor
    webMaster := feed.webMaster
    pubDate := normDate pd feed.pubDate
    lastBuildDate := normDate pd feed.lastBuildDate
    image :=
      match feed.image with
      | none => none
      | some v =>
        if v.truthy then
          some { url := v.urlOrSelf
                 title := jsOrEmpty (jsOr v.titleProp feed.title)
                 link := jsOrEmpty (jsOr v.linkProp feed.link)
                 width := v.widthProp
                 height := v.heightProp }
        else none }

/-! ### Size limits and size estimation — `estimateFeedSize` -/

/-- `MAX_FEED_ITEMS`. -/
def MAX_FEED_ITEMS : Nat := 1000

/-- `MAX_FEED_SIZE_BYTES = 10 * 1024 * 1024`. -/
def MAX_FEED_SIZE_BYTES : Nat := 10 * 1024 * 1024

/-- `SIZE_CHECK_THRESHOLD = MAX_FEED_SIZE_BYTES * 0.8`; the product is
exact in binary floating point (`10485760 * 0.8 = 8388608`). -/
def SIZE_CHECK_THRESHOLD : Nat := 8388608

/-- `Math.ceil(n * 1.2)` as the exact rational ceiling of `6n/5`. -/
def ceilTimes12 (n : Nat) : Nat := (6 * n + 4) / 5

/-- `Math.ceil(n * 1.3)` as the exact rational ceiling of `13n/10`. -/
def ceilTimes13 (n : Nat) : Nat := (13 * n + 9) / 10

/-- `s?.length || 0` for an optional string field. -/
def optLen (o : Option String) : Nat :=
  match o with
  | some s => s.length
  | none => 0

/-- Total of the significant string lengths used by the fallback estimate:
metadata `title`/`description`/`link` plus, per item,
`title`/`description`/`content`/`link`. -/
def fieldLenSum (nf : ParsedFeed) : Nat :=
  (nf.metadata.title.length + optLen nf.metadata.description + nf.metadata.link.length)
    + (nf.items.map fun item =>
        item.title.length + optLen item.description + optLen item.content
          + item.link.length).sum

/-- `estimateFeedSize(normalizedFeed, rawFeedSize?)`.  Note the JS guard
`if (rawFeedSize)`: a raw size of `0` is falsy, so it takes the fallback
branch exactly like an absent raw size. -/
def estimateFeedSize (nf : ParsedFeed) (rawFeedSize : Option Nat) : Nat :=
  match rawFeedSize with
  | some n => if n ≠ 0 then ceilTimes12 n else ceilTimes13 (fieldLenSum nf)
  | none => ceilTimes13 (fieldLenSum nf)

/-- The item-count failure message
(template `Feed contains ${n} items, ...` with `MAX_FEED_ITEMS = 1000`). -/
def tooManyItemsMsg (n : Nat) : String :=
  "Feed contains " ++ toString n ++
    " items, which exceeds the maximum limit of 1000 items. Please use a feed with fewer items."

/-- `Math.round(bytes / 1024 / 1024 * 100) / 100` rendered with two
decimal places (the JS decimal rendering of the rounded value is
abstracted to a fixed-point form; no modelled property depends on it). -/
def mbString (n : Nat) : String :=
  let r := (100 * n + 524288) / 1048576
  toString (r / 100) ++ "." ++ toString (r % 100)

/-- The size failure message
(template `Feed size (...MB) exceeds ...` with `MAX_FEED_SIZE_MB = 10`). -/
def sizeExceededMsg (feedSize : Nat) : String :=
  "Feed size (" ++ mbString feedSize ++
    "MB) exceeds the maximum limit of 10MB. Please use a smaller feed."

/-! ### `parseFeedInternal` — the two parse paths

Each path is modelled as a function of the already-fetched document,
returning `none` when the path throws (so control falls to the error
classifier), and otherwise `some (result, normCount)` where `normCount`
counts how many items went through per-item normalization (`0` when the
item-count guard rejects the feed before the `items.map` runs).
`exactSize` is the oracle for `JSON.stringify(normalizedFeed).length`. -/

/-- The `normalizedFeed` object built on the RSS/Atom path: the feed type
is `atom` when `feed.feedUrl?.includes('atom')`, else `rss`; metadata and
items go through the normalizers. -/
def rssNormalized (pd : String → JSDate) (feed : RSSParserFeed)
    (its : List RSSParserItem) : ParsedFeed :=
  { type :=
      match feed.feedUrl with
      | some u => if strHas u "atom" then .atom else .rss
      | none => .rss
    metadata := normalizeMetadata pd feed
    items := its.map (normalizeItem pd) }

/-- The RSS/Atom branch of `parseFeedInternal`, from the point where
`parser.parseURL` has produced `feed`.  `feed.items` being `undefined`
makes `feed.items.map` throw (the count guard short-circuits on it
first), modelled as `none`. -/
def parseRssPath (pd : String → JSDate) (exactSize : Nat) (feed : RSSParserFeed) :
    Option (FeedParseResult × Nat) :=
  match feed.items with
  | some its =>
    if its.length > MAX_FEED_ITEMS then
      some (mkFailure (tooManyItemsMsg its.length), 0)
    else
      let nf : ParsedFeed := rssNormalized pd feed its
      let rawFeedSize : Option Nat := feed.raw.map String.length
      let est := estimateFeedSize nf rawFeedSize
      let feedSize := if est > SIZE_CHECK_THRESHOLD then exactSize else est
      if feedSize > MAX_FEED_SIZE_BYTES then
        some (mkFailure (sizeExceededMsg feedSize), its.length)
      else
        some (mkSuccess nf, its.length)
  | none => none

/-- The `normalizedFeed` object built on the JSON Feed path. -/
def jsonNormalized (pd : String → JSDate) (jsonData : JSONFeedData)
    (items : List JSONFeedItem) : ParsedFeed :=
  { type := .json
    metadata :=
      { title := jsOrEmpty jsonData.title
        description := jsonData.description
        link := jsOrEmpty jsonData.home_page_url
        language := jsonData.language
        copyright := none
        managingEditor := none
        webMaster := none
        pubDate := none
        lastBuildDate := none
        image :=
          match jsonData.icon with
          | some ic =>
            if ic ≠ "" then
              some { url := .str ic
                     title := jsOrEmpty jsonData.title
                     link := jsOrEmpty jsonData.home_page_url
                     width := none
                     height := none }
            else none
          | none => none }
    items := items.map (normalizeJsonFeedItem pd) }

/-- The JSON Feed fallback branch of `parseFeedInternal`, from the point
where the fetched body has parsed as JSON.  Returns `none` when the
version marker is missing (control falls through to the classifier).
`rawLen` is the oracle for `JSON.stringify(jsonData).length`. -/
def parseJsonPath (pd : String → JSDate) (exactSize rawLen : Nat) (jsonData : JSONFeedData) :
    Option (FeedParseResult × Nat) :=
  match jsonData.version with
  | none => none
  | some v =>
    if v ≠ "" ∧ List.isPrefixOf "https://jsonfeed.org".data v.data then
      let items := jsonData.items.getD []
      if items.length > MAX_FEED_ITEMS then
        some (mkFailure (tooManyItemsMsg items.length), 0)
      else
        let nf : ParsedFeed := jsonNormalized pd jsonData items
        let est := estimateFeedSize nf (some rawLen)
        let feedSize := if est > SIZE_CHECK_THRESHOLD then exactSize else est
        if feedSize > MAX_FEED_SIZE_BYTES then
          some (mkFailure (sizeExceededMsg feedSize), items.length)
        else
          some (mkSuccess nf, items.length)
    else none

/-! ### Error classifier — `FeedParserService.parseError` -/

/-- Error categories. -/
inductive ErrCat where
  | http
  | network
  | cors
  | parse
  | unknown
deriving DecidableEq

/-- Any of the given substrings occurs in `s`. -/
def hasAny (s : String) (pats : List String) : Bool :=
  pats.any fun pat => strHas s pat

/-- The text-matching stage of `parseError` (runs when no truthy HTTP
status short-circuits): network, CORS, parse, SSL/TLS, rate-limit checks
in source order, with the generic fallback. -/
def parseErrorText (errorString url errorMessage : String) : ErrCat × String :=
  if hasAny errorString ["enotfound", "econnrefused", "timeout", "network", "dns",
      "getaddrinfo", "connection", "econnreset"] then
    (.network,
      "Network connection failed: Unable to connect to the feed server at \"" ++ url ++
        "\". Check your internet connection and try again. If the problem persists, the feed server may be temporarily unavailable or the URL may be incorrect.")
  else if hasAny errorString ["cors", "cross-origin", "access-control",
      "no access-control-allow-origin"] then
    (.cors,
      "CORS policy blocked: The feed server doesn't allow cross-origin requests from this application. This is a server-side configuration issue. Try accessing \"" ++
        url ++ "\" directly in your browser, or contact the feed publisher to enable CORS headers.")
  else if hasAny errorString ["parse", "xml", "invalid", "malformed", "syntax",
      "unexpected", "not well-formed"] then
    (.parse,
      "Invalid feed format: The feed XML/JSON is malformed or invalid. The feed structure doesn't conform to RSS, Atom, or JSON Feed specifications. Validate your feed structure using the RSS Spec & Linter tool, or check the feed source for formatting errors.")
  else if hasAny errorString ["ssl", "tls", "certificate", "unable to verify"] then
    (.network,
      "SSL/TLS error: There's a problem with the security certificate for \"" ++ url ++
        "\". The connection cannot be verified as secure. This may indicate a server configuration issue or an expired certificate.")
  else if hasAny errorString ["rate limit", "too many requests", "429"] then
    (.http,
      "Rate limit exceeded: Too many requests to this feed. Please wait a few moments before trying again.")
  else
    (.unknown,
      "Failed to parse feed from \"" ++ url ++ "\": " ++ errorMessage ++
        ". This could be due to an invalid feed format, network issues, or server problems. Try validating the feed URL in your browser first, or use the RSS Spec & Linter tool to check the feed structure.")

/-- The HTTP-status switch of `parseError`; `none` means the switch falls
through to text matching (statuses 1–399 hit no case). -/
def parseErrorStatus (s : Nat) (httpStatusText : Option String) (url : String) :
    Option (ErrCat × String) :=
  if s = 404 then
    some (.http,
      "HTTP 404: Feed not found at this URL. Verify the feed URL is correct and publicly accessible. Try opening \"" ++
        url ++ "\" directly in your browser to confirm it exists.")
  else if s = 403 then
    some (.http,
      "HTTP 403: Access forbidden. The feed server is blocking access to this URL. This may be due to server configuration or access restrictions. Try checking if the feed requires authentication.")
  else if s = 401 then
    some (.http,
      "HTTP 401: Authentication required. This feed requires authentication to access. Contact the feed publisher for access credentials.")
  else if s = 500 ∨ s = 502 ∨ s = 503 ∨ s = 504 then
    some (.http,
      "HTTP " ++ toString s ++ ": Server error. The feed server is experiencing issues (" ++
        jsOrD httpStatusText "Server Error" ++
        "). The problem is on the server side, not with your request. Try again later.")
  else if 400 ≤ s ∧ s < 500 then
    some (.http,
      "HTTP " ++ toString s ++ ": Client error (" ++ jsOrD httpStatusText "Error" ++
        "). The request was invalid or the feed URL may be incorrect. Verify the URL and try again.")
  else if 500 ≤ s then
    some (.http,
      "HTTP " ++ toString s ++ ": Server error (" ++ jsOrD httpStatusText "Error" ++
        "). The feed server encountered an error. Try again later or contact the feed publisher.")
  else
    none

/-- `FeedParserService.parseError(error, url, httpStatus?, httpStatusText?)`.
`errorMessage` is the error's message text.  The `if (httpStatus)` guard
is JS-truthy: an absent status or a status of `0` skips the switch. -/
def parseError (errorMessage url : String) (httpStatus : Option Nat)
    (httpStatusText : Option String) : ErrCat × String :=
  let errorString := lowerStr errorMessage
  let statusResult : Option (ErrCat × String) :=
    match httpStatus with
    | some s => if s ≠ 0 then parseErrorStatus s httpStatusText url else none
    | none => none
  match statusResult with
  | some r => r
  | none => parseErrorText errorString url errorMessage

/-- Modelled from the spec (for claim C6 only): the classifier as the
claim describes it — after the HTTP-status stage, the lower-cased text is
matched against the *network* tier (DNS/connection/timeout substrings
*and* the TLS substrings) first, then *cors*, then *parse*, with
*unknown* as the fallback.  Substring lists are those of the source;
only the ordering follows the claim's words. -/
def claimOrderClassify (errorMessage url : String) (httpStatus : Option Nat)
    (httpStatusText : Option String) : ErrCat × String :=
  let errorString := lowerStr errorMessage
  let statusResult : Option (ErrCat × String) :=
    match httpStatus with
    | some s => if s ≠ 0 then parseErrorStatus s httpStatusText url else none
    | none => none
  match statusResult with
  | some r => r
  | none =>
    if hasAny errorString ["enotfound", "econnrefused", "timeout", "network", "dns",
        "getaddrinfo", "connection", "econnreset", "ssl", "tls", "certificate",
        "unable to verify"] then
      (.network, "")
    else if hasAny errorString ["cors", "cross-origin", "access-control",
        "no access-control-allow-origin"] then
      (.cors, "")
    else if hasAny errorString ["parse", "xml", "invalid", "malformed", "syntax",
        "unexpected", "not well-formed"] then
      (.parse, "")
    else
      (.unknown, "")

/-! ### LRU cache — class `LRUCache`

A JS `Map` iterates in insertion order, and `Map.delete` + `Map.set`
re-inserts at the end; the cache is modelled as an association list with
unique keys whose head is the least recently used entry. -/

/-- A cache entry (`CacheEntry`): the stored result plus insertion and
last-access timestamps (epoch milliseconds). -/
structure CacheEntry where
  result : FeedParseResult
  timestamp : Nat
  accessTime : Nat

/-- Key lookup in an association list (JS `Map.get`). -/
def lookupKey (l : List (String × CacheEntry)) (url : String) : Option CacheEntry :=
  (l.find? fun p => p.1 = url).map fun p => p.2

/-- Key removal (JS `Map.delete`; keys are unique). -/
def eraseKey (l : List (String × CacheEntry)) (url : String) :
    List (String × CacheEntry) :=
  l.filter fun p => p.1 ≠ url

/-- The cache state (`LRUCache`): recency-ordered entries plus the
configured capacity and TTL.  The periodic background sweep timer is
outside the modelled per-operation behavior. -/
structure LRUCache where
  entries : List (String × CacheEntry)
  maxSize : Nat
  ttl : Nat

/-- `LRUCache.get(url)` at clock `now`: miss on no entry; lazy-expire and
miss when `now - entry.timestamp > ttl`; otherwise refresh `accessTime`,
re-insert at the most-recently-used end, and return the stored result. -/
def LRUCache.get (c : LRUCache) (url : String) (now : Nat) :
    Option FeedParseResult × LRUCache :=
  match lookupKey c.entries url with
  | none => (none, c)
  | some e =>
    if now - e.timestamp > c.ttl then
      (none, { c with entries := eraseKey c.entries url })
    else
      (some e.result,
        { c with entries :=
            eraseKey c.entries url ++ [(url, { e with accessTime := now })] })

/-- `LRUCache.set(url, result)` at clock `now`: drop an existing entry for
`url`; if still at capacity, read the first (least recently used) key and
delete it — but only when that key is truthy, so an empty-string first
key is *not* evicted (`if (firstKey)`); insert the new entry at the end. -/
def LRUCache.set (c : LRUCache) (url : String) (result : FeedParseResult) (now : Nat) :
    LRUCache :=
  let e1 := if (lookupKey c.entries url).isSome then eraseKey c.entries url else c.entries
  let e2 :=
    if e1.length ≥ c.maxSize then
      match e1 with
      | [] => e1
      | (firstKey, _) :: rest => if firstKey ≠ "" then rest else e1
    else e1
  { c with entries := e2 ++ [(url, { result := result, timestamp := now, accessTime := now })] }

/-- `CACHE_TTL = 5 * 60 * 1000` milliseconds. -/
def CACHE_TTL : Nat := 5 * 60 * 1000

/-- `MAX_CACHE_SIZE = 100` entries. -/
def MAX_CACHE_SIZE : Nat := 100

/-! ### `parseFeed` — cache read, in-flight coalescing, completion

The host is a single-threaded event loop: each synchronous run-to-await
segment is one atomic step.  `callStep` is the synchronous body of
`parseFeed(url, useCache)` (cache probe, in-flight probe, fetch start,
tracker registration — `parseFeedInternal` runs synchronously up to its
first network await, so the fetch is initiated inside this step).
`completeStep` is the `.then` continuation that runs when the fetch/parse
computation finishes: it deletes the tracker entry, conditionally stores
the result in the cache, and only then settles the shared promise.
`parseFeedInternal` never rejects (every failure is a returned value), so
the `.catch` cleanup path is never taken. -/

/-- An in-flight tracker entry: the shared promise's identity and the
`useCache` flag captured by the creating call's closure. -/
structure InFlightEntry where
  pid : Nat
  useCache : Bool

/-- In-flight tracker lookup (JS `Map.get`). -/
def lookupIF (l : List (String × InFlightEntry)) (url : String) : Option InFlightEntry :=
  (l.find? fun p => p.1 = url).map fun p => p.2

/-- In-flight tracker removal (JS `Map.delete`). -/
def eraseIF (l : List (String × InFlightEntry)) (url : String) :
    List (String × InFlightEntry) :=
  l.filter fun p => p.1 ≠ url

/-- The service's module-level state: the shared cache, the in-flight
request map, a fresh-promise counter, and the log of started underlying
fetch/parse computations (one list element per network fetch). -/
structure SysState where
  cache : LRUCache
  inFlight : List (String × InFlightEntry)
  nextPid : Nat
  fetchLog : List String

/-- What a call to `parseFeed` hands its caller at the end of the
synchronous step: a cached result, or (a handle on) a shared promise. -/
inductive CallOutcome where
  | cached (r : FeedParseResult)
  | joined (pid : Nat)
  | started (pid : Nat)

/-- The synchronous body of `parseFeed(url, useCache)` at clock `now`. -/
def callStep (s : SysState) (url : String) (useCache : Bool) (now : Nat) :
    CallOutcome × SysState :=
  let probe := if useCache then s.cache.get url now else (none, s.cache)
  match probe with
  | (some r, cache1) => (.cached r, { s with cache := cache1 })
  | (none, cache1) =>
    match lookupIF s.inFlight url with
    | some e => (.joined e.pid, { s with cache := cache1 })
    | none =>
      (.started s.nextPid,
        { cache := cache1
          inFlight := s.inFlight ++ [(url, { pid := s.nextPid, useCache := useCache })]
          nextPid := s.nextPid + 1
          fetchLog := s.fetchLog ++ [url] })

/-- The completion continuation for the in-flight computation on `url`,
delivering `result` at clock `now`: delete the tracker entry, cache the
result when the creating call had `useCache` and the parse succeeded, and
settle the shared promise (returned as the promise id/value pair, with
the tracker already updated). -/
def completeStep (s : SysState) (url : String) (result : FeedParseResult) (now : Nat) :
    SysState × Option (Nat × FeedParseResult) :=
  match lookupIF s.inFlight url with
  | none => (s, none)
  | some e =>
    let s1 := { s with inFlight := eraseIF s.inFlight url }
    let s2 :=
      if e.useCache && result.success then
        { s1 with cache := s1.cache.set url result now }
      else s1
    (s2, some (e.pid, result))

/-- Run a burst of `parseFeed(url, useCache := true)` calls, one per clock
value in `ts`, collecting each caller's outcome. -/
def callMany (s : SysState) (url : String) (ts : List Nat) :
    List CallOutcome × SysState :=
  match ts with
  | [] => ([], s)
  | t :: rest =>
    let (o, s1) := callStep s url true t
    let (os, s2) := callMany s1 url rest
    (o :: os, s2)

/-! ### Re-feeding normalized output to the normalizer

JS reads properties by name, so a normalized `FeedItem` passed back to
`normalizeItem` presents exactly its own fields under their own names:
`contentSnippet`, `content:encoded`, `id`, `creator`, `thumbnail` and
`media:thumbnail` are absent, dates are `Date` objects, and the
normalized `image` field has no raw-input counterpart. -/

/-- A normalized item viewed as raw `rss-parser` input. -/
def reinterpretItem (fi : FeedItem) : RSSParserItem :=
  { title := some fi.title
    link := some fi.link
    description := fi.description
    contentSnippet := none
    content := fi.content
    contentEncoded := none
    pubDate := fi.pubDate.map RawDateVal.date
    guid := fi.guid
    id := none
    author := fi.author
    creator := none
    categories := some fi.categories
    thumbnail := none
    mediaThumbnail := none
    enclosure := fi.enclosure }

/-- Normalized metadata viewed as a raw `rss-parser` feed (items and the
raw payload are not part of the metadata object). -/
def reinterpretMeta (md : FeedMetadata) : RSSParserFeed :=
  { title := some md.title
    description := md.description
    link := some md.link
    feedUrl := none
    language := md.language
    copyright := md.copyright
    managingEditor := md.managingEditor
    webMaster := md.webMaster
    pubDate := md.pubDate.map RawDateVal.date
    lastBuildDate := md.lastBuildDate.map RawDateVal.date
    image := md.image.map fun im =>
      .obj im.url (some im.title) (some im.link) im.width im.height
    items := none
    raw := none }

/-! ### Concrete fixtures for witnesses and counterexamples -/

/-- A date parser instance for concrete evaluations (every string an
Invalid Date; the modelled properties never depend on parsed values). -/
def pd0 : String → JSDate := fun _ => none

/-- Metadata with every field empty/absent. -/
def metaEmpty : FeedMetadata :=
  ⟨"", none, "", none, none, none, none, none, none, none⟩

/-- A concrete failure result. -/
def failR : FeedParseResult := mkFailure "boom"

/-- A concrete successful result over an empty feed. -/
def okR : FeedParseResult := mkSuccess ⟨.rss, metaEmpty, []⟩

/-- The module-level state at service start: empty cache (capacity 100,
TTL 5 minutes), empty in-flight map, no fetches yet. -/
def sysInit : SysState := ⟨⟨[], MAX_CACHE_SIZE, CACHE_TTL⟩, [], 0, []⟩

/-- A throwaway cache entry. -/
def c4entry : CacheEntry := ⟨failR, 0, 0⟩

/-- A cache at capacity 100 whose least-recently-used entry has the
empty-string key. -/
def c4state : LRUCache :=
  ⟨("", c4entry) :: (List.range 99).map (fun i => ("u" ++ toString i, c4entry)),
    MAX_CACHE_SIZE, CACHE_TTL⟩

/-- A one-entry cache for the `get` witness. -/
def wCache : LRUCache := ⟨[("u", ⟨failR, 100, 100⟩)], 100, 300000⟩

/-- A feed item whose only payload is a two-character title. -/
def itemAB : FeedItem := ⟨"ab", "", none, none, none, none, none, [], none, none⟩

/-- A normalized feed with `fieldLenSum = 2`. -/
def nfAB : ParsedFeed := ⟨.rss, metaEmpty, [itemAB]⟩

/-- A raw RSS item carrying its image in the `thumbnail` field, with no
content to extract an image from. -/
def thumbItem : RSSParserItem :=
  { title := some "t", link := some "l", description := none, contentSnippet := none
    content := none, contentEncoded := none, pubDate := none, guid := some "g"
    id := none, author := none, creator := none, categories := none
    thumbnail := some (some "https://img.example/i.png")
    mediaThumbnail := none, enclosure := none }

/-- A JSON Feed item whose only link information is `external_url`. -/
def extOnlyItem : JSONFeedItem :=
  { title := none, url := none, external_url := some "https://ext.example/post"
    summary := none, content_html := none, content_text := none
    date_published := none, id := none, authors := none, tags := none
    image := none, banner_image := none, attachments := none }

/-- A fully-populated normalized item for the re-normalization witness. -/
def fiW : FeedItem :=
  ⟨"T", "L", some "D", some "C", some (some 5), some "G", some "A", ["c1"],
    some "I", some ⟨some "eu", some "et", some 7⟩⟩

/-- Populated normalized metadata for the re-normalization witness. -/
def mdW : FeedMetadata :=
  ⟨"MT", some "MD", "ML", some "en", none, none, none, some (some 9), none, none⟩

/-- An empty raw RSS item (all properties absent). -/
def rssItem0 : RSSParserItem :=
  ⟨none, none, none, none, none, none, none, none, none, none, none, none,
    none, none, none⟩

/-- A raw RSS feed with 1001 items. -/
def rssFeed1001 : RSSParserFeed :=
  ⟨none, none, none, none, none, none, none, none, none, none, none,
    some (List.replicate 1001 rssItem0), none⟩

/-- An empty JSON Feed item (all properties absent). -/
def jsonItem0 : JSONFeedItem :=
  ⟨none, none, none, none, none, none, none, none, none, none, none, none, none⟩

/-- A JSON Feed document with 1001 items and a valid version marker. -/
def jsonFeed1001 : JSONFeedData :=
  ⟨some "https://jsonfeed.org/version/1.1", some (List.replicate 1001 jsonItem0),
    none, none, none, none, none⟩

/-- A raw RSS feed with a single small item and no raw payload. -/
def rssFeed1 : RSSParserFeed :=
  ⟨some "t", none, none, none, none, none, none, none, none, none, none,
    some [rssItem0], none⟩

/-! ## Shared helper lemmas -/

/-- A falsy-or with a non-empty final operand yields a non-empty string. -/
theorem jsOr_ne_empty (x : Option String) (l : String) (hl : l ≠ "") :
    ∃ g, jsOr x (some l) = some g ∧ g ≠ "" := by
  cases x with
  | none => exact ⟨l, rfl, hl⟩
  | some s =>
    by_cases h : s = ""
    · exact ⟨l, by simp [jsOr, h], hl⟩
    · exact ⟨s, by simp [jsOr, h], h⟩

/-- A `get` on an unknown key is a miss and leaves the cache unchanged. -/
theorem lruGet_miss (c : LRUCache) (url : String) (now : Nat)
    (h : lookupKey c.entries url = none) : c.get url now = (none, c) := by
  simp [LRUCache.get, h]

/-- `parseFeed` joins an existing in-flight computation without touching
any state when the cache has no entry for the URL. -/
theorem callStep_join (s : SysState) (url : String) (now : Nat) (e : InFlightEntry)
    (hc : lookupKey s.cache.entries url = none)
    (hf : lookupIF s.inFlight url = some e) :
    callStep s url true now = (.joined e.pid, s) := by
  simp [callStep, lruGet_miss s.cache url now hc, hf]

/-- `parseFeed` starts a fresh computation when neither the cache nor the
in-flight map knows the URL: a new fetch is logged and the tracker entry
is registered in the same synchronous step. -/
theorem callStep_start (s : SysState) (url : String) (useCache : Bool) (now : Nat)
    (hc : lookupKey s.cache.entries url = none)
    (hf : lookupIF s.inFlight url = none) :
    callStep s url useCache now =
      (.started s.nextPid,
        { cache := s.cache
          inFlight := s.inFlight ++ [(url, ⟨s.nextPid, useCache⟩)]
          nextPid := s.nextPid + 1
          fetchLog := s.fetchLog ++ [url] }) := by
  cases useCache with
  | false => simp [callStep, hf]
  | true => simp [callStep, lruGet_miss s.cache url now hc, hf]

/-- While a computation for the URL is in flight and the cache stays
empty for it, every further call joins that computation and the state is
unchanged. -/
theorem callMany_joined (s : SysState) (url : String) (e : InFlightEntry)
    (ts : List Nat)
    (hc : lookupKey s.cache.entries url = none)
    (hf : lookupIF s.inFlight url = some e) :
    callMany s url ts = (ts.map fun _ => .joined e.pid, s) := by
  induction ts with
  | nil => rfl
  | cons t rest ih => simp [callMany, callStep_join s url t e hc hf, ih]

/-- Appending a fresh key to an association list makes it the looked-up
entry when the key was previously absent (in-flight map version). -/
theorem lookupIF_append (l : List (String × InFlightEntry)) (url : String)
    (e : InFlightEntry) (h : lookupIF l url = none) :
    lookupIF (l ++ [(url, e)]) url = some e := by
  simp only [lookupIF, Option.map_eq_none'] at h
  simp [lookupIF, List.find?_append, h]

/-- Deleting a key that only occurs as the appended last entry restores
the original in-flight map. -/
theorem eraseIF_append (l : List (String × InFlightEntry)) (url : String)
    (e : InFlightEntry) (h : lookupIF l url = none) :
    eraseIF (l ++ [(url, e)]) url = l := by
  simp only [lookupIF, Option.map_eq_none'] at h
  have h2 : ∀ x ∈ l, (decide (x.1 ≠ url)) = true := by
    intro x hx
    have := List.find?_eq_none.mp h x hx
    simpa using this
  have h3 : List.filter (fun p : String × InFlightEntry => decide (p.1 ≠ url)) l = l :=
    List.filter_eq_self.mpr h2
  simp [eraseIF, List.filter_append, h3]
  intro a b hab
  have := h2 (a, b) hab
  simpa using this

/-! ## Claim theorems -/

/-- C4: the claim says that `set` on a cache at capacity (100 entries)
with a new URL always evicts the first (least-recently-used) entry before
inserting.  The code's eviction guard `if (firstKey)` is JS-truthy, so
when the least-recently-used key is the empty string nothing is evicted:
on a full 100-entry cache whose LRU key is `""`, inserting a new URL
leaves 101 entries and the `""` entry still at the front. -/
theorem C4_lru_eviction_empty_key_skip :
    c4state.maxSize = 100 ∧
    c4state.entries.length = 100 ∧
    lookupKey c4state.entries "new" = none ∧
    (c4state.set "new" failR 5).entries.length = 101 ∧
    (c4state.set "new" failR 5).entries.head?.map (fun p => p.1) = some "" :=
  ⟨rfl, rfl, rfl, rfl, rfl⟩

/-- C5: `get(url)` returns `none` (leaving the cache unchanged) when no
entry exists; when an entry exists and `now - timestamp > ttl` it deletes
the entry and returns `none`; otherwise it refreshes `accessTime` to
`now`, moves the entry to the most-recently-used end, and returns the
stored result unchanged — a hit at any time with `now - timestamp ≤ ttl`
and eviction strictly after. -/
theorem C5_get_contract (c : LRUCache) (url : String) (now : Nat) :
    (lookupKey c.entries url = none → c.get url now = (none, c)) ∧
    ∀ e, lookupKey c.entries url = some e →
      (now - e.timestamp > c.ttl →
        c.get url now = (none, { c with entries := eraseKey c.entries url })) ∧
      (now - e.timestamp ≤ c.ttl →
        c.get url now =
          (some e.result,
            { c with entries :=
                eraseKey c.entries url ++ [(url, { e with accessTime := now })] })) := by
  refine ⟨fun h => lruGet_miss c url now h, fun e he => ⟨fun hgt => ?_, fun hle => ?_⟩⟩
  · simp [LRUCache.get, he, hgt]
  · simp [LRUCache.get, he, Nat.not_lt.mpr hle]

/-- Witness for C5 at a concrete one-entry cache: a hit 100 ms after
insertion (TTL 300000 ms) returns the stored result and re-inserts the
entry at the end with `accessTime` refreshed. -/
theorem C5_get_contract_witness :
    wCache.get "u" 200 = (some failR, ⟨[("u", ⟨failR, 100, 200⟩)], 100, 300000⟩) :=
  ((C5_get_contract wCache "u" 200).2 ⟨failR, 100, 100⟩ rfl).2 (by decide)

/-- C9 counterexample: re-normalizing is not value-preserving for the
`image` field.  A raw item carrying its image in `thumbnail` (with no
`<img>` tag in any content) normalizes to an item with that image, but
feeding the normalized item back through `normalizeItem` drops it: the
normalized `image` property has no raw-input counterpart, so the second
pass re-derives `image` from content extraction and gets nothing. -/
theorem C9_thumbnail_image_cex :
    (normalizeItem pd0 thumbItem).image = some "https://img.example/i.png" ∧
    (normalizeItem pd0 (reinterpretItem (normalizeItem pd0 thumbItem))).image = none := by
  exact ⟨rfl, rfl⟩

/-- C9 amended: re-normalizing an already-normalized item preserves
`title`, `link`, `description`, `pubDate`, `categories` and `enclosure`
exactly, and `content`, `guid`, `author` whenever they are populated with
a non-empty value; the `image` field is instead re-derived from
content/description extraction only (so a first-pass image that came from
a thumbnail field and is not embedded in the content is lost).  Re-running
metadata preserves `title`, `link`, `description` and both dates. -/
theorem C9_renormalize_amended (pd : String → JSDate) (fi : FeedItem) (md : FeedMetadata) :
    (normalizeItem pd (reinterpretItem fi)).title = fi.title ∧
    (normalizeItem pd (reinterpretItem fi)).link = fi.link ∧
    (normalizeItem pd (reinterpretItem fi)).description = fi.description ∧
    (fi.content ≠ some "" → (normalizeItem pd (reinterpretItem fi)).content = fi.content) ∧
    (normalizeItem pd (reinterpretItem fi)).pubDate = fi.pubDate ∧
    (∀ g, fi.guid = some g → g ≠ "" →
      (normalizeItem pd (reinterpretItem fi)).guid = some g) ∧
    (∀ a, fi.author = some a → a ≠ "" →
      (normalizeItem pd (reinterpretItem fi)).author = some a) ∧
    (normalizeItem pd (reinterpretItem fi)).categories = fi.categories ∧
    (normalizeItem pd (reinterpretItem fi)).enclosure = fi.enclosure ∧
    (normalizeItem pd (reinterpretItem fi)).image
        = extractImageFromContent (jsOr fi.content fi.description) ∧
    (normalizeMetadata pd (reinterpretMeta md)).title = md.title ∧
    (normalizeMetadata pd (reinterpretMeta md)).link = md.link ∧
    (normalizeMetadata pd (reinterpretMeta md)).description = md.description ∧
    (normalizeMetadata pd (reinterpretMeta md)).pubDate = md.pubDate ∧
    (normalizeMetadata pd (reinterpretMeta md)).lastBuildDate = md.lastBuildDate := by
  refine ⟨?_, ?_, rfl, ?_, ?_, ?_, ?_, rfl, ?_, ?_, ?_, ?_, rfl, ?_, ?_⟩
  · simp [normalizeItem, reinterpretItem, jsOrEmpty]
  · simp [normalizeItem, reinterpretItem, jsOrEmpty]
  · intro hne
    cases hc : fi.content with
    | none => simp [normalizeItem, reinterpretItem, jsOr, hc]
    | some s =>
      have hs : s ≠ "" := by intro hs0; exact hne (by rw [hc, hs0])
      simp [normalizeItem, reinterpretItem, jsOr, hc, hs]
  · cases hp : fi.pubDate with
    | none => simp [normalizeItem, reinterpretItem, normDate, hp]
    | some d => simp [normalizeItem, reinterpretItem, normDate, hp, RawDateVal.truthy, jsNewDate]
  · intro g hg hne
    simp [normalizeItem, reinterpretItem, jsOr, hg, hne]
  · intro a ha hne
    simp [normalizeItem, reinterpretItem, jsOr, ha, hne]
  · cases he : fi.enclosure with
    | none => simp [normalizeItem, reinterpretItem, he]
    | some e => simp [normalizeItem, reinterpretItem, he]
  · simp [normalizeItem, reinterpretItem, jsOr]
  · simp [normalizeMetadata, reinterpretMeta, jsOrEmpty]
  · by_cases h : md.link = "" <;>
      simp [normalizeMetadata, reinterpretMeta, jsOr, jsOrEmpty, h]
  · cases hp : md.pubDate with
    | none => simp [normalizeMetadata, reinterpretMeta, normDate, hp]
    | some d =>
      simp [normalizeMetadata, reinterpretMeta, normDate, hp, RawDateVal.truthy, jsNewDate]
  · cases hp : md.lastBuildDate with
    | none => simp [normalizeMetadata, reinterpretMeta, normDate, hp]
    | some d =>
      simp [normalizeMetadata, reinterpretMeta, normDate, hp, RawDateVal.truthy, jsNewDate]

/-- Witness for C9 amended at a fully-populated concrete item: the
populated `guid` and `content` survive re-normalization. -/
theorem C9_renormalize_amended_witness :
    (normalizeItem pd0 (reinterpretItem fiW)).guid = some "G" ∧
    (normalizeItem pd0 (reinterpretItem fiW)).content = some "C" := by
  have h := C9_renormalize_amended pd0 fiW mdW
  exact ⟨h.2.2.2.2.2.1 "G" rfl (by decide), h.2.2.2.1 (by decide)⟩

/-- C10 counterexample: on the JSON Feed path the guid does *not* fall
back to the link.  The link falls back through `url || external_url`,
but the guid only through `id || url`: an item with only `external_url`
normalizes to a non-empty link with an absent guid. -/
theorem C10_json_guid_cex :
    (normalizeJsonFeedItem pd0 extOnlyItem).link = "https://ext.example/post" ∧
    (normalizeJsonFeedItem pd0 extOnlyItem).link ≠ "" ∧
    (normalizeJsonFeedItem pd0 extOnlyItem).guid = none := by
  refine ⟨rfl, by decide, rfl⟩

/-- C10 amended: on the RSS/Atom path `guid = guid || id || link`, so a
non-empty normalized link forces a non-empty guid; on the JSON Feed path
`guid = id || url` — it falls back to `url` only, so the guid is
guaranteed non-empty only when `url` itself is present and non-empty
(a link coming from `external_url` leaves the guid empty). -/
theorem C10_guid_amended (pd : String → JSDate) (item : RSSParserItem)
    (jitem : JSONFeedItem) :
    (normalizeItem pd item).guid = jsOr (jsOr item.guid item.id) item.link ∧
    ((normalizeItem pd item).link ≠ "" →
      ∃ g, (normalizeItem pd item).guid = some g ∧ g ≠ "") ∧
    (normalizeJsonFeedItem pd jitem).guid = jsOr jitem.id jitem.url ∧
    (∀ u, jitem.url = some u → u ≠ "" →
      ∃ g, (normalizeJsonFeedItem pd jitem).guid = some g ∧ g ≠ "") := by
  refine ⟨rfl, ?_, rfl, ?_⟩
  · intro hne
    cases hl : item.link with
    | none => simp [normalizeItem, jsOrEmpty, hl] at hne
    | some l =>
      have hlne : l ≠ "" := by
        intro h0
        apply hne
        simp [normalizeItem, jsOrEmpty, hl, h0]
      have := jsOr_ne_empty (jsOr item.guid item.id) l hlne
      simpa [normalizeItem, hl] using this
  · intro u hu hne
    have := jsOr_ne_empty jitem.id u hne
    simpa [normalizeJsonFeedItem, hu] using this

/-- Witness for C10 amended: a JSON item with a non-empty `url` and no
`id` gets that `url` as its guid. -/
theorem C10_guid_amended_witness :
    ∃ g, (normalizeJsonFeedItem pd0
      ⟨none, some "https://u.example/p", none, none, none, none, none, none,
        none, none, none, none, none⟩).guid = some g ∧ g ≠ "" :=
  (C10_guid_amended pd0 rssItem0
      ⟨none, some "https://u.example/p", none, none, none, none, none, none,
        none, none, none, none, none⟩).2.2.2
    "https://u.example/p" rfl (by decide)

/-- C1 counterexample: failed parse results are *not* cached.  From the
initial state, a `parseFeed("u")` call whose computation completes with a
failure leaves the cache empty, and a subsequent call within any TTL
window starts a second fetch instead of returning a cached failure. -/
theorem C1_failure_not_cached_cex :
    failR.success = false ∧
    (completeStep (callStep sysInit "u" true 0).2 "u" failR 1).1.cache.entries = [] ∧
    (callStep (completeStep (callStep sysInit "u" true 0).2 "u" failR 1).1 "u" true 2).1
        = .started 1 ∧
    (callStep (completeStep (callStep sysInit "u" true 0).2 "u" failR 1).1 "u" true 2).2.fetchLog
        = ["u", "u"] :=
  ⟨rfl, rfl, rfl, rfl⟩

/-- C1 amended: only successful results are stored.  On completion, a
result with `success = false` leaves the cache untouched (so a later call
re-fetches rather than seeing a cached failure), while a successful
result is stored whenever the creating call used the cache. -/
theorem C1_only_success_cached (s : SysState) (url : String) (r : FeedParseResult)
    (now : Nat) (e : InFlightEntry) (h : lookupIF s.inFlight url = some e) :
    (r.success = false → (completeStep s url r now).1.cache = s.cache) ∧
    (r.success = true → e.useCache = true →
      (completeStep s url r now).1.cache = s.cache.set url r now) := by
  constructor
  · intro hr
    simp [completeStep, h, hr]
  · intro hr hu
    simp [completeStep, h, hr, hu]

/-- Witness for C1 amended: completing the first call's computation with
a failure leaves the concrete cache exactly as it was. -/
theorem C1_only_success_cached_witness :
    (completeStep (callStep sysInit "u" true 0).2 "u" failR 1).1.cache
      = (callStep sysInit "u" true 0).2.cache := by
  have h := C1_only_success_cached (callStep sysInit "u" true 0).2 "u" failR 1 ⟨0, true⟩ rfl
  exact h.1 rfl

/-- C2 counterexample: `useCache=false` does *not* populate the cache on
success.  A `parseFeed("u", false)` call completing successfully leaves
the cache empty, and a later `parseFeed("u", true)` call starts a fresh
fetch instead of returning the stored result. -/
theorem C2_no_cache_write_cex :
    okR.success = true ∧
    (completeStep (callStep sysInit "u" false 0).2 "u" okR 1).1.cache.entries = [] ∧
    (callStep (completeStep (callStep sysInit "u" false 0).2 "u" okR 1).1 "u" true 2).1
        = .started 1 :=
  ⟨rfl, rfl, rfl⟩

/-- C2 amended: `useCache=false` bypasses the cache read *and* the cache
write: the call never returns a cached value and does not touch the
cache, and a completion whose creating call had `useCache=false` stores
nothing even on success. -/
theorem C2_useCache_false_bypasses (s : SysState) (url : String) (now : Nat) :
    (callStep s url false now).2.cache = s.cache ∧
    (∀ r, (callStep s url false now).1 ≠ .cached r) ∧
    (∀ e r now2, lookupIF s.inFlight url = some e → e.useCache = false →
      (completeStep s url r now2).1.cache = s.cache) := by
  refine ⟨?_, ?_, ?_⟩
  · cases hf : lookupIF s.inFlight url <;> simp [callStep, hf]
  · intro r
    cases hf : lookupIF s.inFlight url <;> simp [callStep, hf]
  · intro e r now2 he hu
    simp [completeStep, he, hu]

/-- Witness for C2 amended: a concrete `useCache=false` computation
completing with a success leaves the concrete cache unchanged. -/
theorem C2_useCache_false_bypasses_witness :
    (completeStep (callStep sysInit "u" false 0).2 "u" okR 1).1.cache
      = (callStep sysInit "u" false 0).2.cache := by
  have h := C2_useCache_false_bypasses (callStep sysInit "u" false 0).2 "u" 0
  exact h.2.2 ⟨0, false⟩ okR 1 rfl rfl

/-- C3: single-flight.  From a state with no cache entry and no in-flight
computation for the URL, a burst of `N ≥ 1` calls starts exactly one
underlying fetch (the fetch log grows by one element); the first caller
starts the shared promise and every later caller joins that same promise.
On completion the tracker entry is removed — in the very step that
settles the promise with the result handed to all callers — and any call
arriving after completion that misses the cache starts a fresh fetch. -/
theorem C3_single_flight (s0 : SysState) (url : String)
    (hc : lookupKey s0.cache.entries url = none)
    (hf : lookupIF s0.inFlight url = none)
    (t : Nat) (rest : List Nat) :
    (callMany s0 url (t :: rest)).1
        = .started s0.nextPid :: rest.map (fun _ => .joined s0.nextPid) ∧
    (callMany s0 url (t :: rest)).2.fetchLog = s0.fetchLog ++ [url] ∧
    (callMany s0 url (t :: rest)).2.cache = s0.cache ∧
    ∀ r now2,
      (completeStep (callMany s0 url (t :: rest)).2 url r now2).2
          = some (s0.nextPid, r) ∧
      lookupIF (completeStep (callMany s0 url (t :: rest)).2 url r now2).1.inFlight url
          = none ∧
      ∀ now3,
        lookupKey (completeStep (callMany s0 url (t :: rest)).2 url r now2).1.cache.entries
            url = none →
        (callStep (completeStep (callMany s0 url (t :: rest)).2 url r now2).1 url true
              now3).1
            = .started (completeStep (callMany s0 url (t :: rest)).2 url r now2).1.nextPid ∧
        (callStep (completeStep (callMany s0 url (t :: rest)).2 url r now2).1 url true
              now3).2.fetchLog
            = (completeStep (callMany s0 url (t :: rest)).2 url r now2).1.fetchLog
                ++ [url] := by
  have h1 := callStep_start s0 url true t hc hf
  have hf1 : lookupIF (s0.inFlight ++ [(url, ⟨s0.nextPid, true⟩)]) url
      = some ⟨s0.nextPid, true⟩ := lookupIF_append s0.inFlight url _ hf
  have h3 := callMany_joined
      { cache := s0.cache
        inFlight := s0.inFlight ++ [(url, ⟨s0.nextPid, true⟩)]
        nextPid := s0.nextPid + 1
        fetchLog := s0.fetchLog ++ [url] } url ⟨s0.nextPid, true⟩ rest hc hf1
  have h2 : callMany s0 url (t :: rest)
      = (.started s0.nextPid :: rest.map (fun _ => .joined s0.nextPid),
          { cache := s0.cache
            inFlight := s0.inFlight ++ [(url, ⟨s0.nextPid, true⟩)]
            nextPid := s0.nextPid + 1
            fetchLog := s0.fetchLog ++ [url] }) := by
    simp only [callMany, h1, h3]
  rw [h2]
  refine ⟨rfl, rfl, rfl, fun r now2 => ?_⟩
  have herase := eraseIF_append s0.inFlight url ⟨s0.nextPid, true⟩ hf
  cases hrs : r.success with
  | false =>
    have hcomp : completeStep
        { cache := s0.cache
          inFlight := s0.inFlight ++ [(url, ⟨s0.nextPid, true⟩)]
          nextPid := s0.nextPid + 1
          fetchLog := s0.fetchLog ++ [url] } url r now2
        = ({ cache := s0.cache
             inFlight := s0.inFlight
             nextPid := s0.nextPid + 1
             fetchLog := s0.fetchLog ++ [url] },
           some (s0.nextPid, r)) := by
      simp [completeStep, hf1, hrs, herase]
    rw [hcomp]
    refine ⟨rfl, hf, fun now3 hc3 => ?_⟩
    have h4 := callStep_start
        { cache := s0.cache
          inFlight := s0.inFlight
          nextPid := s0.nextPid + 1
          fetchLog := s0.fetchLog ++ [url] } url true now3 hc3 hf
    rw [h4]
    exact ⟨rfl, rfl⟩
  | true =>
    have hcomp : completeStep
        { cache := s0.cache
          inFlight := s0.inFlight ++ [(url, ⟨s0.nextPid, true⟩)]
          nextPid := s0.nextPid + 1
          fetchLog := s0.fetchLog ++ [url] } url r now2
        = ({ cache := s0.cache.set url r now2
             inFlight := s0.inFlight
             nextPid := s0.nextPid + 1
             fetchLog := s0.fetchLog ++ [url] },
           some (s0.nextPid, r)) := by
      simp [completeStep, hf1, hrs, herase]
    rw [hcomp]
    refine ⟨rfl, hf, fun now3 hc3 => ?_⟩
    have h4 := callStep_start
        { cache := s0.cache.set url r now2
          inFlight := s0.inFlight
          nextPid := s0.nextPid + 1
          fetchLog := s0.fetchLog ++ [url] } url true now3 hc3 hf
    rw [h4]
    exact ⟨rfl, rfl⟩

/-- Witness for C3 at the initial state: three concurrent calls produce
one started promise and two joins of it, with a single logged fetch. -/
theorem C3_single_flight_witness :
    (callMany sysInit "u" [0, 1, 2]).1 =
      [.started 0, .joined 0, .joined 0] ∧
    (callMany sysInit "u" [0, 1, 2]).2.fetchLog = ["u"] := by
  have h := C3_single_flight sysInit "u" rfl rfl 0 [1, 2]
  exact ⟨h.1, h.2.1⟩

/-! ## Helper lemmas for string containment and message disjointness -/

/-- An infix of the left part is an infix of an append. -/
theorem infixAppendLeft (p a rest : List Char) (h : p <:+: a) : p <:+: a ++ rest :=
  h.trans (a.prefix_append rest).isInfix

/-- The middle block of a right-associated append is an infix. -/
theorem infixMid (a b rest : List Char) : b <:+: a ++ (b ++ rest) :=
  ⟨a, rest, by simp⟩

/-- The scan of `strHasAux` finds exactly the infixes. -/
theorem strHasAux_iff (pat l : List Char) : strHasAux pat l = true ↔ pat <:+: l := by
  induction l with
  | nil => simp [strHasAux, List.isPrefixOf_iff_prefix]
  | cons c rest ih =>
    simp [strHasAux, List.isPrefixOf_iff_prefix, ih, List.infix_cons_iff]

/-- `strHas` agrees with list-infix containment. -/
theorem strHas_eq_true_iff (s pat : String) : strHas s pat = true ↔ pat.data <:+: s.data :=
  strHasAux_iff pat.data s.data

/-- A size-exceeded message is never an item-count message (they diverge
at the sixth character). -/
theorem sizeMsg_ne_tooManyMsg (a b : Nat) : sizeExceededMsg a ≠ tooManyItemsMsg b := by
  intro h
  have h5 := congrArg (fun t => t.data.get? 5) h
  have hL : (sizeExceededMsg a).data.get? 5 = some 's' := by
    unfold sizeExceededMsg
    rw [String.data_append, String.data_append, List.get?_append, List.get?_append]
    · rfl
    · decide
    · rw [List.length_append]
      have h11 : ("Feed size (" : String).data.length = 11 := rfl
      omega
  have hR : (tooManyItemsMsg b).data.get? 5 = some 'c' := by
    unfold tooManyItemsMsg
    rw [String.data_append, String.data_append, List.get?_append, List.get?_append]
    · rfl
    · decide
    · rw [List.length_append]
      have h14 : ("Feed contains " : String).data.length = 14 := rfl
      omega
  simp only [] at h5
  rw [hL, hR] at h5
  exact absurd h5 (by decide)

/-- After the item-count guard passes on the RSS path, the result is the
size-guard verdict paired with the full normalization count. -/
theorem parseRssPath_eq (pd : String → JSDate) (ex : Nat)
    (feed : RSSParserFeed) (its : List RSSParserItem)
    (hits : feed.items = some its) (hlen : ¬ its.length > MAX_FEED_ITEMS) :
    parseRssPath pd ex feed
      = some
        (if (if estimateFeedSize (rssNormalized pd feed its) (feed.raw.map String.length)
                  > SIZE_CHECK_THRESHOLD then ex
             else estimateFeedSize (rssNormalized pd feed its) (feed.raw.map String.length))
            > MAX_FEED_SIZE_BYTES
         then mkFailure (sizeExceededMsg
            (if estimateFeedSize (rssNormalized pd feed its) (feed.raw.map String.length)
                  > SIZE_CHECK_THRESHOLD then ex
             else estimateFeedSize (rssNormalized pd feed its) (feed.raw.map String.length)))
         else mkSuccess (rssNormalized pd feed its), its.length) := by
  simp only [parseRssPath, hits]
  rw [if_neg hlen]
  split <;> split <;> rfl

/-- After the version check and the item-count guard pass on the JSON
Feed path, the result is the size-guard verdict paired with the full
normalization count. -/
theorem parseJsonPath_eq (pd : String → JSDate) (exJ rawLen : Nat)
    (j : JSONFeedData) (v : String) (jits : List JSONFeedItem)
    (hv : j.version = some v) (hv2 : v ≠ "")
    (hv3 : List.isPrefixOf "https://jsonfeed.org".data v.data = true)
    (hjits : j.items = some jits) (hlen : ¬ jits.length > MAX_FEED_ITEMS) :
    parseJsonPath pd exJ rawLen j
      = some
        (if (if estimateFeedSize (jsonNormalized pd j jits) (some rawLen)
                  > SIZE_CHECK_THRESHOLD then exJ
             else estimateFeedSize (jsonNormalized pd j jits) (some rawLen))
            > MAX_FEED_SIZE_BYTES
         then mkFailure (sizeExceededMsg
            (if estimateFeedSize (jsonNormalized pd j jits) (some rawLen)
                  > SIZE_CHECK_THRESHOLD then exJ
             else estimateFeedSize (jsonNormalized pd j jits) (some rawLen)))
         else mkSuccess (jsonNormalized pd j jits), jits.length) := by
  simp only [parseJsonPath, hv, hjits]
  rw [if_pos ⟨hv2, hv3⟩]
  simp only [Option.getD_some]
  rw [if_neg hlen]
  split <;> split <;> rfl

/-- C6 counterexample: the claim places the TLS substrings in the
first-priority `network` text tier, but the source checks the SSL/TLS
substrings only *after* the parse tier: the error text
"invalid certificate" (a TLS substring and a parse substring) classifies
as `parse` in the code, while the claim's priority order yields
`network`. -/
theorem C6_tls_priority_cex :
    (parseError "invalid certificate" "https://example.com/feed" none none).1
        = ErrCat.parse ∧
    (claimOrderClassify "invalid certificate" "https://example.com/feed" none none).1
        = ErrCat.network ∧
    ErrCat.parse ≠ ErrCat.network := by
  refine ⟨rfl, rfl, by decide⟩

/-- C6 amended: the HTTP status, when present and non-zero, takes
precedence: 404/403/401 have dedicated messages, *every* other 4xx
(including 429) and *every* 5xx produce an `http` result embedding the
status code, and *every* status below 400 falls through to text
matching.  Text matching then runs in the order network, cors, parse,
TLS (also `network`), rate-limit (`http`), unknown — so the cors tier
sits between network and parse ("cors denied" is `cors`,
"connection cors" is `network`, "cors invalid" is `cors`) and the TLS
substrings rank *below* parse: "invalid certificate" is `parse` while
"bad certificate" is `network`.  The claim's three probes hold:
"ECONNREFUSED" is `network`, status 404 is `http` with the code
embedded, "Unexpected token" is `parse`. -/
theorem C6_classifier_amended (e u : String) (st : Option String) :
    ((parseError e u (some 404) st).1 = .http ∧
      strHas (parseError e u (some 404) st).2 "404") ∧
    ((parseError e u (some 403) st).1 = .http ∧
      strHas (parseError e u (some 403) st).2 "403") ∧
    ((parseError e u (some 401) st).1 = .http ∧
      strHas (parseError e u (some 401) st).2 "401") ∧
    ((parseError e u (some 429) st).1 = .http ∧
      strHas (parseError e u (some 429) st).2 "429") ∧
    (∀ s, 500 ≤ s → (parseError e u (some s) st).1 = .http ∧
      strHas (parseError e u (some s) st).2 (toString s)) ∧
    (parseError "ECONNREFUSED" u none st).1 = .network ∧
    (parseError "Unexpected token" u none st).1 = .parse ∧
    (parseError "invalid certificate" u none st).1 = .parse ∧
    (parseError "bad certificate" u none st).1 = .network ∧
    (parseError "429" u none st).1 = .http ∧
    (parseError "zzz" u none st).1 = .unknown ∧
    (∀ s, 400 ≤ s → s < 500 → (parseError e u (some s) st).1 = .http ∧
      strHas (parseError e u (some s) st).2 (toString s)) ∧
    (∀ s, 0 < s → s < 400 →
      parseError e u (some s) st = parseErrorText (lowerStr e) u e) ∧
    (parseError "cors denied" u none st).1 = .cors ∧
    (parseError "connection cors" u none st).1 = .network ∧
    (parseError "cors invalid" u none st).1 = .cors := by
  have e404 : parseError e u (some 404) st
      = (.http, "HTTP 404: Feed not found at this URL. Verify the feed URL is correct and publicly accessible. Try opening \"" ++ u ++ "\" directly in your browser to confirm it exists.") := rfl
  have e403 : parseError e u (some 403) st
      = (.http, "HTTP 403: Access forbidden. The feed server is blocking access to this URL. This may be due to server configuration or access restrictions. Try checking if the feed requires authentication.") := rfl
  have e401 : parseError e u (some 401) st
      = (.http, "HTTP 401: Authentication required. This feed requires authentication to access. Contact the feed publisher for access credentials.") := rfl
  have e429 : parseError e u (some 429) st
      = (.http, "HTTP " ++ toString 429 ++ ": Client error (" ++ jsOrD st "Error" ++ "). The request was invalid or the feed URL may be incorrect. Verify the URL and try again.") := rfl
  refine ⟨⟨by rw [e404], ?_⟩, ⟨by rw [e403], ?_⟩, ⟨by rw [e401], ?_⟩, ⟨by rw [e429], ?_⟩,
      ?_, rfl, rfl, rfl, rfl, rfl, rfl, ?_, ?_, rfl, rfl, rfl⟩
  · rw [e404]
    rw [strHas_eq_true_iff]
    simp only [String.data_append, List.append_assoc]
    exact infixAppendLeft _ _ _ ((strHas_eq_true_iff _ _).mp (by decide))
  · rw [e403]; decide
  · rw [e401]; decide
  · rw [e429]
    rw [strHas_eq_true_iff]
    simp only [String.data_append, List.append_assoc]
    exact infixMid _ _ _
  · intro s hs
    by_cases h500 : s = 500 ∨ s = 502 ∨ s = 503 ∨ s = 504
    · have hps : parseErrorStatus s st u
          = some (.http, "HTTP " ++ toString s ++ ": Server error. The feed server is experiencing issues (" ++ jsOrD st "Server Error" ++ "). The problem is on the server side, not with your request. Try again later.") := by
        unfold parseErrorStatus
        rw [if_neg (by omega), if_neg (by omega), if_neg (by omega), if_pos h500]
      have he : parseError e u (some s) st
          = (.http, "HTTP " ++ toString s ++ ": Server error. The feed server is experiencing issues (" ++ jsOrD st "Server Error" ++ "). The problem is on the server side, not with your request. Try again later.") := by
        simp [parseError, show s ≠ 0 by omega, hps]
      rw [he]
      refine ⟨rfl, ?_⟩
      rw [strHas_eq_true_iff]
      simp only [String.data_append, List.append_assoc]
      exact infixMid _ _ _
    · have hps : parseErrorStatus s st u
          = some (.http, "HTTP " ++ toString s ++ ": Server error (" ++ jsOrD st "Error" ++ "). The feed server encountered an error. Try again later or contact the feed publisher.") := by
        unfold parseErrorStatus
        rw [if_neg (by omega), if_neg (by omega), if_neg (by omega), if_neg h500,
          if_neg (by omega), if_pos hs]
      have he : parseError e u (some s) st
          = (.http, "HTTP " ++ toString s ++ ": Server error (" ++ jsOrD st "Error" ++ "). The feed server encountered an error. Try again later or contact the feed publisher.") := by
        simp [parseError, show s ≠ 0 by omega, hps]
      rw [he]
      refine ⟨rfl, ?_⟩
      rw [strHas_eq_true_iff]
      simp only [String.data_append, List.append_assoc]
      exact infixMid _ _ _
  · intro s hs4 hs5
    by_cases h404 : s = 404
    · subst h404
      refine ⟨by rw [e404], ?_⟩
      rw [e404, strHas_eq_true_iff]
      simp only [String.data_append, List.append_assoc]
      exact infixAppendLeft _ _ _ ((strHas_eq_true_iff _ _).mp (by decide))
    · by_cases h403 : s = 403
      · subst h403
        refine ⟨by rw [e403], ?_⟩
        rw [e403]
        decide
      · by_cases h401 : s = 401
        · subst h401
          refine ⟨by rw [e401], ?_⟩
          rw [e401]
          decide
        · have hps : parseErrorStatus s st u
              = some (.http, "HTTP " ++ toString s ++ ": Client error (" ++ jsOrD st "Error" ++ "). The request was invalid or the feed URL may be incorrect. Verify the URL and try again.") := by
            unfold parseErrorStatus
            rw [if_neg h404, if_neg h403, if_neg h401, if_neg (by omega),
              if_pos ⟨hs4, hs5⟩]
          have he : parseError e u (some s) st
              = (.http, "HTTP " ++ toString s ++ ": Client error (" ++ jsOrD st "Error" ++ "). The request was invalid or the feed URL may be incorrect. Verify the URL and try again.") := by
            simp [parseError, show s ≠ 0 by omega, hps]
          rw [he]
          refine ⟨rfl, ?_⟩
          rw [strHas_eq_true_iff]
          simp only [String.data_append, List.append_assoc]
          exact infixMid _ _ _
  · intro s h0 h4
    have hps : parseErrorStatus s st u = none := by
      unfold parseErrorStatus
      rw [if_neg (by omega), if_neg (by omega), if_neg (by omega), if_neg (by omega),
        if_neg (by omega), if_neg (by omega)]
    simp [parseError, show s ≠ 0 by omega, hps]

/-- Witness for C6 amended at concrete inputs: a 404 is `http`, a 503 is
`http`, "ECONNREFUSED" with no status is `network`, a 418 (generic 4xx)
is `http`, and a 302 falls through to text matching. -/
theorem C6_classifier_amended_witness :
    (parseError "boom" "https://example.com/feed" (some 404) none).1 = .http ∧
    (parseError "boom" "https://example.com/feed" (some 503) none).1 = .http ∧
    (parseError "ECONNREFUSED" "https://example.com/feed" none none).1 = .network ∧
    (parseError "boom" "https://example.com/feed" (some 418) none).1 = .http ∧
    parseError "timeout happened" "https://example.com/feed" (some 302) none
      = parseErrorText (lowerStr "timeout happened") "https://example.com/feed"
          "timeout happened" := by
  have h := C6_classifier_amended "boom" "https://example.com/feed" none
  have h2 := C6_classifier_amended "timeout happened" "https://example.com/feed" none
  obtain ⟨c1, c2, c3, c4, c5, c6, c7, c8, c9, c10, c11, c12, c13, c14, c15, c16⟩ := h
  obtain ⟨d1, d2, d3, d4, d5, d6, d7, d8, d9, d10, d11, d12, d13, d14, d15, d16⟩ := h2
  exact ⟨c1.1, (c5 503 (by decide)).1, c6, (c12 418 (by decide) (by decide)).1,
    d13 302 (by decide) (by decide)⟩

/-- C7: on both parse paths, a feed whose raw item count strictly exceeds
1000 is rejected with the descriptive too-many-items message *before* any
per-item normalization runs (normalization count 0), while a feed with
exactly 1000 items passes the guard: all 1000 items are normalized and
the result is never an item-count failure. -/
theorem C7_item_cap (pd : String → JSDate) (ex exJ rawLen : Nat)
    (feed : RSSParserFeed) (its : List RSSParserItem) (hits : feed.items = some its)
    (j : JSONFeedData) (v : String) (jits : List JSONFeedItem)
    (hv : j.version = some v) (hv2 : v ≠ "")
    (hv3 : List.isPrefixOf "https://jsonfeed.org".data v.data = true)
    (hjits : j.items = some jits) :
    (its.length > MAX_FEED_ITEMS →
      parseRssPath pd ex feed = some (mkFailure (tooManyItemsMsg its.length), 0)) ∧
    (its.length = MAX_FEED_ITEMS →
      ∃ r, parseRssPath pd ex feed = some (r, MAX_FEED_ITEMS) ∧
        r.error ≠ some (tooManyItemsMsg MAX_FEED_ITEMS)) ∧
    (jits.length > MAX_FEED_ITEMS →
      parseJsonPath pd exJ rawLen j = some (mkFailure (tooManyItemsMsg jits.length), 0)) ∧
    (jits.length = MAX_FEED_ITEMS →
      ∃ r, parseJsonPath pd exJ rawLen j = some (r, MAX_FEED_ITEMS) ∧
        r.error ≠ some (tooManyItemsMsg MAX_FEED_ITEMS)) := by
  refine ⟨fun hgt => ?_, fun heq => ?_, fun hgt => ?_, fun heq => ?_⟩
  · simp only [parseRssPath, hits]
    rw [if_pos hgt]
  · have heqq := parseRssPath_eq pd ex feed its hits (by omega)
    rw [heq] at heqq
    refine ⟨_, heqq, ?_⟩
    split <;> split
    all_goals
      first
        | (simp only [mkFailure, Option.some.injEq, ne_eq]
           exact sizeMsg_ne_tooManyMsg _ _)
        | simp [mkSuccess]
  · simp only [parseJsonPath, hv, hjits]
    rw [if_pos ⟨hv2, hv3⟩]
    simp only [Option.getD_some]
    rw [if_pos hgt]
  · have heqq := parseJsonPath_eq pd exJ rawLen j v jits hv hv2 hv3 hjits (by omega)
    rw [heq] at heqq
    refine ⟨_, heqq, ?_⟩
    split <;> split
    all_goals
      first
        | (simp only [mkFailure, Option.some.injEq, ne_eq]
           exact sizeMsg_ne_tooManyMsg _ _)
        | simp [mkSuccess]

/-- Witness for C7: concrete 1001-item feeds are rejected on both paths
with normalization count 0. -/
theorem C7_item_cap_witness :
    parseRssPath pd0 0 rssFeed1001 = some (mkFailure (tooManyItemsMsg 1001), 0) ∧
    parseJsonPath pd0 0 0 jsonFeed1001 = some (mkFailure (tooManyItemsMsg 1001), 0) := by
  have h := C7_item_cap pd0 0 0 0 rssFeed1001 (List.replicate 1001 rssItem0) rfl
      jsonFeed1001 "https://jsonfeed.org/version/1.1" (List.replicate 1001 jsonItem0)
      rfl (by decide) (by decide) rfl
  constructor
  · have h1 := h.1 (by simp [MAX_FEED_ITEMS])
    simpa using h1
  · have h2 := h.2.2.1 (by simp [MAX_FEED_ITEMS])
    simpa using h2

/-- C8 counterexample: with a *known but zero* raw length the estimator
does not compute `ceil(0 × 1.2) = 0` as the claim's formula states — the
JS guard `if (rawFeedSize)` treats 0 as falsy, so it falls back to the
field-length estimate (here 3). -/
theorem C8_zero_raw_estimate_cex :
    estimateFeedSize nfAB (some 0) = 3 ∧
    ceilTimes12 0 = 0 ∧
    estimateFeedSize nfAB (some 0) ≠ ceilTimes12 0 := by
  refine ⟨rfl, rfl, by decide⟩

/-- C8 amended: the estimate is `ceil(n × 1.2)` when the raw length is
known *and non-zero*; with an unknown — or known zero — raw length it is
`ceil(1.3 × the sum of metadata title/description/link and per-item
title/description/content/link lengths)`.  On the parse path, the exact
(`JSON.stringify`) measurement replaces the estimate exactly when the
estimate exceeds 80% of the cap (8388608 bytes), and the parse fails with
the size message exactly when the governing size exceeds 10 MiB — in
particular an unmeasured estimate (≤ the threshold) can never trigger the
failure. -/
theorem C8_size_guard_amended (nf : ParsedFeed) (n : Nat) (hn : n ≠ 0) :
    estimateFeedSize nf (some n) = ceilTimes12 n ∧
    estimateFeedSize nf none = ceilTimes13 (fieldLenSum nf) ∧
    estimateFeedSize nf (some 0) = ceilTimes13 (fieldLenSum nf) ∧
    ∀ (pd : String → JSDate) (ex : Nat) (feed : RSSParserFeed)
      (its : List RSSParserItem),
      feed.items = some its → ¬ its.length > MAX_FEED_ITEMS →
      (estimateFeedSize (rssNormalized pd feed its) (feed.raw.map String.length)
          ≤ SIZE_CHECK_THRESHOLD →
        parseRssPath pd ex feed
          = some (mkSuccess (rssNormalized pd feed its), its.length)) ∧
      (estimateFeedSize (rssNormalized pd feed its) (feed.raw.map String.length)
          > SIZE_CHECK_THRESHOLD →
        parseRssPath pd ex feed
          = some (if ex > MAX_FEED_SIZE_BYTES then mkFailure (sizeExceededMsg ex)
                  else mkSuccess (rssNormalized pd feed its), its.length)) := by
  refine ⟨by simp [estimateFeedSize, hn], rfl, rfl, ?_⟩
  intro pd ex feed its hits hlen
  constructor
  · intro hest
    have h1 : ¬ estimateFeedSize (rssNormalized pd feed its) (feed.raw.map String.length)
        > SIZE_CHECK_THRESHOLD := by omega
    have h2 : ¬ estimateFeedSize (rssNormalized pd feed its) (feed.raw.map String.length)
        > MAX_FEED_SIZE_BYTES := by
      simp only [SIZE_CHECK_THRESHOLD] at hest
      simp only [MAX_FEED_SIZE_BYTES]
      omega
    simp only [parseRssPath, hits]
    rw [if_neg hlen, if_neg h1, if_neg h2]
  · intro hest
    simp only [parseRssPath, hits]
    rw [if_neg hlen, if_pos hest]
    by_cases hex : ex > MAX_FEED_SIZE_BYTES
    · rw [if_pos hex, if_pos hex]
    · rw [if_neg hex, if_neg hex]

/-- Witness for C8 amended: `ceil(5 × 1.2) = 6` on a concrete feed, and a
concrete one-item feed with a small estimate parses successfully without
the exact measurement. -/
theorem C8_size_guard_amended_witness :
    estimateFeedSize nfAB (some 5) = 6 ∧
    parseRssPath pd0 0 rssFeed1 =
      some (mkSuccess (rssNormalized pd0 rssFeed1 [rssItem0]), 1) := by
  have h := C8_size_guard_amended nfAB 5 (by decide)
  refine ⟨h.1.trans (by decide), ?_⟩
  have h2 := (h.2.2.2 pd0 0 rssFeed1 [rssItem0] rfl (by decide)).1 (by decide)
  simpa using h2

end RSSSandbox
